import Mathlib

/-!
Verification of the crawl/content service core against its specification.

The definitions below are shallow embeddings of the Go sources of the
repository: the worker pool admission control (`worker_pool.go` part),
the job-id validation and terminal-update sequence of the `/crawl`
handler, the three-tier crawl orchestrator, the URL reachability
prober, the tiered content extractor and the startup job recovery.
Machine integers are modelled as `Int`/`Nat` (no overflow is reachable
at the sizes involved), strings as Lean `String`/`List Char`, and
effectful steps (HTTP probes, tier sub-crawls, store round trips) as
explicit parameters or as traces of abstract actions.
-/

namespace Crawler

/-! ## Worker pool (part_006)

`calculateOptimalWorkers` depends on `runtime.NumCPU()` and
`runtime.MemStats.Sys`; both are parameters here.  Go's `/` on
non-negative `int` values is `Nat` division. -/

/-- Sizing of the process-wide pool: `min(2·CPU, Sys/100MiB)` with the
`<1 → 10` memory fallback, clamped to `[5, 50]` (part_006 lines 54-79). -/
def calculateOptimalWorkers (cpuCount sysBytes : Nat) : Nat :=
  let cpuBasedLimit := cpuCount * 2
  let memoryBasedLimit := sysBytes / (100 * 1024 * 1024)
  let memoryBasedLimit := if memoryBasedLimit < 1 then 10 else memoryBasedLimit
  let maxWorkers := if memoryBasedLimit < cpuBasedLimit then memoryBasedLimit else cpuBasedLimit
  let maxWorkers := if maxWorkers > 50 then 50 else maxWorkers
  if maxWorkers < 5 then 5 else maxWorkers

/-- Admission check (part_006 lines 112-116):
`available >= urlCount/10 || available >= 2` with
`available = maxWorkers - activeJobs`.  `urlCount` is a slice length,
hence a `Nat`; `activeJobs` is a signed counter. -/
def canAcceptWork (maxWorkers active : Int) (urlCount : Nat) : Bool :=
  let available := maxWorkers - active
  decide (available ≥ (urlCount / 10 : Nat)) || decide (available ≥ 2)

/-- Outcome of the admission part of `ProcessContentURLs`
(part_006 lines 118-125). -/
inductive PoolOutcome : Type
  | overloaded : PoolOutcome
  | reducedConcurrency : Int → PoolOutcome
  | normal : PoolOutcome
deriving DecidableEq

/-- Admission logic of `ProcessContentURLs`: on rejection the pool
retries with `maxWorkers/4` workers and reports `system overloaded`
when that quotient is below 1.  Go `int` division truncates toward
zero, i.e. `Int.tdiv`. -/
def processContentAdmission (maxWorkers active : Int) (urlCount : Nat) : PoolOutcome :=
  if canAcceptWork maxWorkers active urlCount then .normal
  else if maxWorkers.tdiv 4 < 1 then .overloaded
  else .reducedConcurrency (maxWorkers.tdiv 4)

/-- Error string returned by `ProcessContentURLs`, with the two
timeout branches of the accepted path abstracted as flags.  The
reduced-concurrency path (`processWithReducedConcurrency`) always
returns a nil error (part_006 lines 162-180). -/
def processContentURLsError (maxWorkers active : Int) (urlCount : Nat)
    (submitTimeout processingTimeout : Bool) : Option String :=
  match processContentAdmission maxWorkers active urlCount with
  | .overloaded => some "system overloaded"
  | .reducedConcurrency _ => none
  | .normal =>
    if submitTimeout then some "job submission timeout"
    else if processingTimeout then some "processing timeout"
    else none

/-- HTTP status chosen by `HandleGetContent` from the pool's error
(part_003 lines 43-51): `system overloaded` maps to 503, any other
error to 500, no error to 200. -/
def handleGetContentStatus (err : Option String) : Nat :=
  match err with
  | none => 200
  | some e => if e = "system overloaded" then 503 else 500

/-! ## Job-id validation (part_001 lines 191-208)

Go's `len(jobID)` counts UTF-8 bytes while `for _, char := range`
iterates runes; the embedding works on the rune list and computes the
UTF-8 byte count explicitly. -/

/-- Number of bytes of the UTF-8 encoding of one rune. -/
def goUtf8Size (c : Char) : Nat :=
  if c.toNat < 0x80 then 1
  else if c.toNat < 0x800 then 2
  else if c.toNat < 0x10000 then 3
  else 4

/-- Go `len` of a string given as its rune list: total UTF-8 bytes. -/
def goStringLen (s : List Char) : Nat :=
  (s.map goUtf8Size).sum

/-- Character class of `isValidJobID`: ASCII letter, digit, hyphen or
underscore (`0x61..0x7A`, `0x41..0x5A`, `0x30..0x39`, `0x2D`, `0x5F`). -/
def isValidJobIDChar (c : Char) : Bool :=
  (decide (0x61 ≤ c.toNat) && decide (c.toNat ≤ 0x7A)) ||
  (decide (0x41 ≤ c.toNat) && decide (c.toNat ≤ 0x5A)) ||
  (decide (0x30 ≤ c.toNat) && decide (c.toNat ≤ 0x39)) ||
  decide (c.toNat = 0x2D) || decide (c.toNat = 0x5F)

/-- `isValidJobID`: byte length in `[3, 50]` and every rune in the
allowed class. -/
def isValidJobID (s : List Char) : Bool :=
  if goStringLen s < 3 || goStringLen s > 50 then false
  else s.all isValidJobIDChar

/-! ## Terminal-update sequence of a crawl job

`HandleCrawl`'s background goroutine (part_001 lines 144-178) runs
`CrawlWebsiteWithTiers` (part_005 lines 157-345) and then updates the
Job Registry.  The observable order of terminal-relevant actions is
recorded as a trace: bus publishes of a terminal event type
(`completed`/`error`), the in-memory status mutation under `JobsMutex`,
and the `UpdateJobInMongoDB` store write. -/

/-- Which code site publishes a terminal event: the orchestrator
(`CrawlWebsiteWithTiers`) or the `/crawl` handler goroutine. -/
inductive PubSite : Type
  | orchestrator : PubSite
  | handler : PubSite
deriving DecidableEq

/-- One terminal-relevant action of the job lifecycle. -/
inductive TerminalAct : Type
  | publishTerminal (site : PubSite) (etype : String)
  | memStatusUpdate (status : String)
  | storeWrite
deriving DecidableEq

/-- Successful job: the orchestrator publishes `completed` as its last
step (part_005 lines 336-342), then the handler, under `JobsMutex`,
sets `job.Status = "completed"` (line 155), publishes its own
`completed` event (lines 163-169) and finally calls
`UpdateJobInMongoDB` (line 173). -/
def crawlSuccessTrace : List TerminalAct :=
  [.publishTerminal .orchestrator "completed",
   .memStatusUpdate "completed",
   .publishTerminal .handler "completed",
   .storeWrite]

/-- Failed job (all reachability fallbacks dead): the orchestrator
publishes the `error` event (part_005 lines 186-192) before returning
the error; the handler then sets `job.Status = "failed"` (line 151)
and writes the record to the store; no further terminal event is
published. -/
def crawlFailureTrace : List TerminalAct :=
  [.publishTerminal .orchestrator "error",
   .memStatusUpdate "failed",
   .storeWrite]

/-- Scan: every terminal publish is preceded by both the in-memory
status mutation and the store write (the flags record whether those
were already seen). -/
def pubsAfterBothUpdates (seenMem seenStore : Bool) : List TerminalAct → Bool
  | [] => true
  | .publishTerminal _ _ :: rest => seenMem && seenStore && pubsAfterBothUpdates seenMem seenStore rest
  | .memStatusUpdate _ :: rest => pubsAfterBothUpdates true seenStore rest
  | .storeWrite :: rest => pubsAfterBothUpdates seenMem true rest

/-- Scan: every handler-site terminal publish is preceded by the
in-memory status mutation. -/
def handlerPubsAfterMem (seenMem : Bool) : List TerminalAct → Bool
  | [] => true
  | .publishTerminal .handler _ :: rest => seenMem && handlerPubsAfterMem seenMem rest
  | .publishTerminal .orchestrator _ :: rest => handlerPubsAfterMem seenMem rest
  | .memStatusUpdate _ :: rest => handlerPubsAfterMem true rest
  | .storeWrite :: rest => handlerPubsAfterMem seenMem rest

/-- Scan: some orchestrator terminal publish occurs strictly before
the first in-memory status mutation. -/
def orchPubBeforeMem : List TerminalAct → Bool
  | [] => false
  | .publishTerminal .orchestrator _ :: _ => true
  | .publishTerminal .handler _ :: rest => orchPubBeforeMem rest
  | .memStatusUpdate _ :: _ => false
  | .storeWrite :: rest => orchPubBeforeMem rest

/-- Scan: some handler terminal publish occurs strictly before the
first store write. -/
def handlerPubBeforeStore : List TerminalAct → Bool
  | [] => false
  | .publishTerminal .handler _ :: _ => true
  | .publishTerminal .orchestrator _ :: rest => handlerPubBeforeStore rest
  | .memStatusUpdate _ :: rest => handlerPubBeforeStore rest
  | .storeWrite :: _ => false

/-! ## URLs and the reachability prober (utils/url.go)

An absolute URL is modelled as its parsed form: scheme, host, and the
remainder (path plus optional query).  `url.Parse` of a well-formed
absolute URL yields exactly these components, and the code rebuilds
strings as `scheme://host<rest>`. -/

/-- Parsed absolute URL. -/
structure GoURL : Type where
  scheme : String
  host : String
  rest : String
deriving DecidableEq

/-- String form of a parsed URL, as Go's `URL.String()` produces for
these components. -/
def GoURL.toStr (u : GoURL) : String :=
  u.scheme ++ "://" ++ u.host ++ u.rest

/-- `strings.HasPrefix(host, "www.")`. -/
def hostHasWWW (h : String) : Bool :=
  match h.data with
  | 'w' :: 'w' :: 'w' :: '.' :: _ => true
  | _ => false

/-- Go `host[4:]` for a host known to begin with the four ASCII bytes
`www.`. -/
def stripWWW (h : String) : String :=
  ⟨h.data.drop 4⟩

/-- `GenerateFallbackURLs` (url.go lines 84-127): www-toggle of the
host under the original scheme; when the scheme is `http`, also the
`https` variant with the original host and the `https` variant with
the toggled host. -/
def generateFallbackURLs (u : GoURL) : List String :=
  (if !hostHasWWW u.host then [({ u with host := "www." ++ u.host } : GoURL).toStr] else []) ++
  (if hostHasWWW u.host then [({ u with host := stripWWW u.host } : GoURL).toStr] else []) ++
  (if u.scheme = "http" then
    [({ u with scheme := "https" } : GoURL).toStr] ++
    (if !hostHasWWW u.host then
      [({ u with scheme := "https", host := "www." ++ u.host } : GoURL).toStr]
    else
      [({ u with scheme := "https", host := stripWWW u.host } : GoURL).toStr])
  else [])

/-- Result record of the prober (`models.URLFallback`). -/
structure URLFallbackM : Type where
  originalURL : String
  fallbackURL : String
  success : Bool
  error : String
deriving DecidableEq

/-- `FindAccessibleURL` (url.go lines 129-160).  `probe` is the
outcome of `CheckURLAccessibility`: `none` means reachable, `some e`
the error string.  Note that `Error` keeps the original URL's error
even when a fallback succeeds. -/
def findAccessibleURL (probe : String → Option String) (u : GoURL) : String × URLFallbackM :=
  let orig := u.toStr
  match probe orig with
  | none => (orig, ⟨orig, orig, true, ""⟩)
  | some e0 =>
    match (generateFallbackURLs u).find? (fun f => (probe f).isNone) with
    | some f => (f, ⟨orig, f, true, e0⟩)
    | none => (orig, ⟨orig, orig, false, e0⟩)

/-- Fallback candidates in the order the specification claims:
www-toggled host first, then (for `http`) the `https` variants of both
host forms. -/
def specFallbackOrder (u : GoURL) : List String :=
  [({ u with host := if hostHasWWW u.host then stripWWW u.host else "www." ++ u.host } : GoURL).toStr] ++
  (if u.scheme = "http" then
    [({ u with scheme := "https" } : GoURL).toStr,
     ({ u with scheme := "https",
               host := if hostHasWWW u.host then stripWWW u.host else "www." ++ u.host } : GoURL).toStr]
  else [])

/-! ## Duplicate removal and the HTML walker core (part_005)

`removeDuplicateURLs` (lines 420-433) and the URL-collection logic of
`crawlWebsiteWithEvents` (lines 592-640).  The walker's candidate
links — absolute URLs observed in `a[href]` elements after
`cleanURL`/filters — are a parameter; the embedding keeps the
host check, the dedup set, the `maxURLs` cap and the sticky stop
flag. -/

/-- Auxiliary recursion of `removeDuplicateURLs`: `seen` is the set of
already-kept values. -/
def dedupAux {α : Type} [DecidableEq α] (seen : List α) : List α → List α
  | [] => []
  | u :: rest => if u ∈ seen then dedupAux seen rest else u :: dedupAux (u :: seen) rest

/-- `removeDuplicateURLs`: keep the first occurrence of each value,
in order. -/
def removeDuplicateURLs {α : Type} [DecidableEq α] (urls : List α) : List α :=
  dedupAux [] urls

/-- Allowed domains of the walker (part_005 lines 477-484): the base
host and its www-toggle, ordered as the code appends them. -/
def allowedDomains (baseHost : String) : List String :=
  if hostHasWWW baseHost then [baseHost, stripWWW baseHost]
  else [baseHost, "www." ++ baseHost]

/-- One candidate link step of the walker (part_005 lines 592-640):
state is the collected URL list and the sticky `stopped` flag; a new
on-host URL is appended while below `maxURLs`, and reaching the cap
sets `stopped`. -/
def htmlStep (maxURLs : Int) (allowed : List String) (st : List GoURL × Bool) (c : GoURL) :
    List GoURL × Bool :=
  let (urlList, stopped) := st
  if stopped then st
  else if c.host ∈ allowed then
    if c ∉ urlList ∧ (urlList.length : Int) < maxURLs then
      let newList := urlList ++ [c]
      (newList, decide ((newList.length : Int) ≥ maxURLs))
    else st
  else st

/-- URL list produced by the HTML walker from the stream of candidate
links. -/
def htmlTierURLs (base : GoURL) (candidates : List GoURL) (maxURLs : Int) : List GoURL :=
  (candidates.foldl (htmlStep maxURLs (allowedDomains base.host)) ([], false)).1

/-! ## Crawl request defaulting and the tier orchestrator -/

/-- `models.CrawlRequest` (part_007 lines 61-73); the seed URL and the
tier flags are the fields the orchestrator reads. -/
structure CrawlReq : Type where
  url : String
  jobID : String
  depth : Int
  workers : Int
  delay : String
  maxURLs : Int
  enableSitemap : Bool
  enableHTML : Bool
  enableHeadless : Bool
  headlessTimeout : Int
deriving DecidableEq

/-- Default depth 1 (part_001 lines 49-52). -/
def defaultDepth (r : CrawlReq) : CrawlReq :=
  if r.depth = 0 then { r with depth := 1 } else r

/-- Default workers 10 (part_001 lines 53-56). -/
def defaultWorkers (r : CrawlReq) : CrawlReq :=
  if r.workers = 0 then { r with workers := 10 } else r

/-- Default delay 200ms (part_001 lines 57-60). -/
def defaultDelay (r : CrawlReq) : CrawlReq :=
  if r.delay = "" then { r with delay := "200ms" } else r

/-- Default max URLs 1000 (part_001 lines 61-64). -/
def defaultMaxURLs (r : CrawlReq) : CrawlReq :=
  if r.maxURLs = 0 then { r with maxURLs := 1000 } else r

/-- Clamp max URLs to 5000 (part_001 lines 65-69). -/
def clampMaxURLs (r : CrawlReq) : CrawlReq :=
  if r.maxURLs > 5000 then { r with maxURLs := 5000 } else r

/-- Default headless timeout 30 s (part_001 lines 72-75). -/
def defaultHeadlessTimeout (r : CrawlReq) : CrawlReq :=
  if r.headlessTimeout = 0 then { r with headlessTimeout := 30 } else r

/-- Server-side defaulting and clamping of `HandleCrawl`
(part_001 lines 48-75), statement by statement. -/
def applyCrawlDefaults (r : CrawlReq) : CrawlReq :=
  defaultHeadlessTimeout (clampMaxURLs (defaultMaxURLs (defaultDelay (defaultWorkers
    (defaultDepth r)))))

/-- Effective sitemap-tier switch (part_005 line 221): explicit flag,
or default-on when no tier flag is set. -/
def enableSitemapFlag (r : CrawlReq) : Bool :=
  r.enableSitemap || (!r.enableSitemap && !r.enableHTML && !r.enableHeadless)

/-- Effective HTML-tier switch (part_005 line 222). -/
def enableHTMLFlag (r : CrawlReq) : Bool :=
  r.enableHTML || (!r.enableSitemap && !r.enableHTML && !r.enableHeadless)

/-- `shouldFallbackToHTML` (part_005 lines 411-413). -/
def shouldFallbackToHTML (currentURLs : List GoURL) : Bool :=
  decide (currentURLs.length < 10)

/-- Tier-1 output: `CrawlWithSitemapsAndFallback` (part_005 lines
352-399) concatenates the URL lists of the successfully parsed
sitemaps (`parses`) and deduplicates; parse failures only skip their
sitemap.  With the sitemap tier disabled the orchestrator collects
nothing. -/
def tier1URLs (r : CrawlReq) (parses : List (List GoURL)) : List GoURL :=
  if enableSitemapFlag r then removeDuplicateURLs parses.flatten else []

/-- Result of a crawl (`models.CrawlResult` plus which tiers ran). -/
structure CrawlResultM : Type where
  targetURL : GoURL
  totalURLs : Nat
  urls : List GoURL
  usedSitemap : Bool
  usedHTML : Bool
  usedHeadless : Bool
deriving DecidableEq

/-- URL list after the optional HTML tier (part_005 lines 260-300):
when the HTML fallback fires and succeeds, merge and deduplicate;
a failing HTML tier leaves the tier-1 list unchanged. -/
def mergedURLs (r : CrawlReq) (actualURL : GoURL) (parses : List (List GoURL))
    (htmlErr : Option String) (htmlCandidates : List GoURL) : List GoURL :=
  if enableHTMLFlag r && shouldFallbackToHTML (tier1URLs r parses) then
    match htmlErr with
    | some _ => tier1URLs r parses
    | none =>
      removeDuplicateURLs
        (tier1URLs r parses ++ htmlTierURLs actualURL htmlCandidates r.maxURLs)
  else tier1URLs r parses

/-- Max-URL cap (part_005 lines 302-311): truncate only when the
limit is positive and exceeded. -/
def cappedURLs (maxURLs : Int) (l : List GoURL) : List GoURL :=
  if decide (maxURLs > 0) && decide ((l.length : Int) > maxURLs) then l.take maxURLs.toNat
  else l

/-- `CrawlWebsiteWithTiers` (part_005 lines 157-345), with the
effectful tier inputs as parameters: `fallbackOk` is the prober
outcome, `robotsFound` whether `ParseRobotsTxt` recovered any sitemap,
`parses` the parsed sitemap URL lists, `htmlErr`/`htmlCandidates` the
HTML tier's failure or its candidate link stream.  The headless flag
is read but never acted on (`_ = crawlConfig.EnableHeadless`,
line 223). -/
def crawlPipeline (r : CrawlReq) (actualURL : GoURL) (fallbackOk robotsFound : Bool)
    (parses : List (List GoURL)) (htmlErr : Option String) (htmlCandidates : List GoURL) :
    Except String CrawlResultM :=
  if !fallbackOk && !robotsFound then
    .error "URL and all fallbacks are inaccessible"
  else
    let finalURLs := cappedURLs r.maxURLs (mergedURLs r actualURL parses htmlErr htmlCandidates)
    .ok { targetURL := actualURL, totalURLs := finalURLs.length, urls := finalURLs,
          usedSitemap := enableSitemapFlag r,
          usedHTML := enableHTMLFlag r && shouldFallbackToHTML (tier1URLs r parses),
          usedHeadless := false }

/-! ## Tiered content extractor (stealth.go lines 164-196)

`processURL` first calls `tryHTMLScraping` (JSDOM rendering with a
plain-HTTP fallback inside) and keeps its response when the error is
empty and the trimmed Markdown is longer than 100 bytes; otherwise it
calls `tryBrowserScraping` (pooled headless browser with an
aggressive-HTTP fallback inside) and keeps that response whenever its
error is empty; otherwise it synthesizes a combined error.  The two
sub-strategy responses are parameters. -/

/-- The fields of `models.ContentResponse` that `processURL` inspects. -/
structure ContentResponseM : Type where
  error : String
  markdown : String
deriving DecidableEq

/-- Whitespace set of Go's `unicode.IsSpace` (the characters
`strings.TrimSpace` removes). -/
def goIsSpace (c : Char) : Bool :=
  c.toNat ∈ ([0x9, 0xA, 0xB, 0xC, 0xD, 0x20, 0x85, 0xA0,
              0x1680, 0x2000, 0x2001, 0x2002, 0x2003, 0x2004, 0x2005, 0x2006,
              0x2007, 0x2008, 0x2009, 0x200A, 0x2028, 0x2029, 0x202F, 0x205F,
              0x3000] : List Nat)

/-- `len(strings.TrimSpace(s))`: UTF-8 byte count of `s` with leading
and trailing whitespace removed. -/
def goTrimmedLen (s : String) : Nat :=
  goStringLen (((s.data.dropWhile goIsSpace).reverse.dropWhile goIsSpace).reverse)

/-- Whether a character list starts with the given pattern. -/
def startsWithChars : List Char → List Char → Bool
  | _, [] => true
  | [], _ :: _ => false
  | a :: as, b :: bs => a == b && startsWithChars as bs

/-- `strings.Contains(s, pat)` on character lists. -/
def containsChars (pat : List Char) : List Char → Bool
  | [] => startsWithChars [] pat
  | c :: rest => startsWithChars (c :: rest) pat || containsChars pat rest

/-- Success test applied to the first-tier response (stealth.go line
169): empty error and trimmed Markdown longer than 100 bytes. -/
def tierOneKeep (resp : ContentResponseM) : Bool :=
  decide (resp.error = "") && decide (goTrimmedLen resp.markdown > 100)

/-- `processURL` selection logic over the two sub-strategy
responses. -/
def processURLSelect (htmlResponse browserResponse : ContentResponseM) : ContentResponseM :=
  if tierOneKeep htmlResponse then htmlResponse
  else if browserResponse.error = "" then browserResponse
  else if htmlResponse.error ≠ "" then
    if containsChars "browser not available".data browserResponse.error.data then
      { htmlResponse with error := htmlResponse.error ++
          " (Browser fallback unavailable: headless browser not available in this environment)" }
    else
      { htmlResponse with error := htmlResponse.error ++
          " (Browser fallback also failed: " ++ browserResponse.error ++ ")" }
  else browserResponse

/-! ## Startup job recovery (database.go lines 117-157)

The store is a list of job records; `LoadActiveJobsFromMongoDB`
filters the `running` ones, marks each failed, inserts it into the
(initially empty) `ActiveJobs` map and rewrites it to the store. -/

/-- The job-record fields recovery touches (`models.JobStatus`);
timestamps are abstract ticks. -/
structure JobRecord : Type where
  id : String
  status : String
  error : String
  createdAt : Nat
  updatedAt : Nat
deriving DecidableEq

/-- The per-record recovery mutation (database.go lines 144-147). -/
def recoveryTransform (now : Nat) (j : JobRecord) : JobRecord :=
  { j with status := "failed", error := "Job interrupted by server restart", updatedAt := now }

/-- The `ActiveJobs` map, as the key-value assignment it denotes. -/
def ActiveJobsMap : Type := String → Option JobRecord

/-- Go map assignment `m[k] = v`. -/
def mapInsert (m : ActiveJobsMap) (k : String) (v : JobRecord) : ActiveJobsMap :=
  fun x => if x = k then some v else m x

/-- The empty map: state of `ActiveJobs` at startup. -/
def emptyJobsMap : ActiveJobsMap := fun _ => none

/-- `LoadActiveJobsFromMongoDB`: returns the `ActiveJobs` map built
from the empty startup state and the list of records rewritten to the
store (each `go UpdateJobInMongoDB(&job)`). -/
def loadActiveJobs (store : List JobRecord) (now : Nat) :
    ActiveJobsMap × List JobRecord :=
  let recovered := (store.filter (fun j => j.status = "running")).map (recoveryTransform now)
  (recovered.foldl (fun m j => mapInsert m j.id j) emptyJobsMap, recovered)

/-! ## Helper lemmas -/

theorem string_append_ne_empty (s t : String) (hs : s ≠ "") : s ++ t ≠ "" := by
  intro h
  apply hs
  have hd : s.data ++ t.data = ([] : List Char) := congrArg String.data h
  have hs' : s.data = [] := (List.append_eq_nil.mp hd).1
  cases s with
  | mk data =>
    simp only at hs'
    subst hs'
    rfl

theorem mem_dedupAux {α : Type} [DecidableEq α] (l : List α) :
    ∀ (seen : List α) (x : α), x ∈ dedupAux seen l ↔ x ∈ l ∧ x ∉ seen := by
  induction l with
  | nil => intro seen x; simp [dedupAux]
  | cons u rest ih =>
    intro seen x
    by_cases hu : u ∈ seen
    · rw [dedupAux, if_pos hu, ih]
      constructor
      · rintro ⟨hr, hs⟩; exact ⟨List.mem_cons_of_mem _ hr, hs⟩
      · rintro ⟨hx, hs⟩
        rcases List.mem_cons.mp hx with rfl | hr
        · exact absurd hu hs
        · exact ⟨hr, hs⟩
    · rw [dedupAux, if_neg hu]
      by_cases hx : x = u
      · subst hx; simp [hu]
      · simp only [List.mem_cons, ih, not_or]
        tauto

theorem nodup_dedupAux {α : Type} [DecidableEq α] (l : List α) :
    ∀ seen : List α, (dedupAux seen l).Nodup := by
  induction l with
  | nil => intro seen; simp [dedupAux]
  | cons u rest ih =>
    intro seen
    by_cases hu : u ∈ seen
    · rw [dedupAux, if_pos hu]; exact ih seen
    · rw [dedupAux, if_neg hu]
      refine List.nodup_cons.mpr ⟨fun h => ?_, ih (u :: seen)⟩
      exact ((mem_dedupAux rest (u :: seen) u).mp h).2 (List.mem_cons_self u seen)

theorem mem_removeDuplicateURLs {α : Type} [DecidableEq α] (l : List α) (x : α) :
    x ∈ removeDuplicateURLs l ↔ x ∈ l := by
  simp [removeDuplicateURLs, mem_dedupAux]

theorem nodup_removeDuplicateURLs {α : Type} [DecidableEq α] (l : List α) :
    (removeDuplicateURLs l).Nodup :=
  nodup_dedupAux l []

theorem host_mem_of_htmlStep (m : Int) (allowed : List String) (st : List GoURL × Bool)
    (c : GoURL) (hst : ∀ u ∈ st.1, u.host ∈ allowed) :
    ∀ u ∈ (htmlStep m allowed st c).1, u.host ∈ allowed := by
  obtain ⟨ul, sp⟩ := st
  intro u hu
  simp only [htmlStep] at hu
  split_ifs at hu with h1 h2 h3
  · exact hst u hu
  · rcases List.mem_append.mp hu with h | h
    · exact hst u h
    · rw [List.mem_singleton.mp h]; exact h2
  · exact hst u hu
  · exact hst u hu

theorem host_mem_of_htmlFold (m : Int) (allowed : List String) (l : List GoURL) :
    ∀ st : List GoURL × Bool, (∀ u ∈ st.1, u.host ∈ allowed) →
    ∀ u ∈ (l.foldl (htmlStep m allowed) st).1, u.host ∈ allowed := by
  induction l with
  | nil => intro st hst; simpa using hst
  | cons c rest ih =>
    intro st hst
    exact ih (htmlStep m allowed st c) (host_mem_of_htmlStep m allowed st c hst)

theorem host_mem_of_htmlTierURLs (base : GoURL) (cands : List GoURL) (m : Int) :
    ∀ u ∈ htmlTierURLs base cands m, u.host ∈ allowedDomains base.host := by
  intro u hu
  exact host_mem_of_htmlFold m (allowedDomains base.host) cands ([], false) (by simp) u hu

theorem nodup_tier1URLs (r : CrawlReq) (parses : List (List GoURL)) :
    (tier1URLs r parses).Nodup := by
  unfold tier1URLs
  split
  · exact nodup_removeDuplicateURLs _
  · exact List.nodup_nil

theorem mem_tier1URLs (r : CrawlReq) (parses : List (List GoURL)) (u : GoURL) :
    u ∈ tier1URLs r parses → u ∈ parses.flatten := by
  unfold tier1URLs
  split
  · intro hu; exact (mem_removeDuplicateURLs _ _).mp hu
  · intro hu; exact absurd hu (List.not_mem_nil u)

/-! ## Theorems for the claims -/

/-- C1, claim as stated: in every terminal trace of a crawl job, each
terminal bus publish is preceded by both the in-memory status mutation
and the store write.  False: the orchestrator's `completed` publish
(part_005 line 336) precedes both registry updates, and the handler's
`completed` publish (part_001 line 163) precedes the store write. -/
theorem claim_C1_counterexample :
    ¬ (pubsAfterBothUpdates false false crawlSuccessTrace = true ∧
       pubsAfterBothUpdates false false crawlFailureTrace = true) := by
  decide

/-- C1 amended: the handler's terminal publish happens after the
in-memory status mutation (so a poll racing the bus event and blocking
on `JobsMutex` sees the terminal status), but the store write happens
only after that publish, and the orchestrator publishes a terminal
event (`completed` on success, `error` on failure) before any Job
Registry update. -/
theorem claim_C1_amended :
    handlerPubsAfterMem false crawlSuccessTrace = true ∧
    handlerPubsAfterMem false crawlFailureTrace = true ∧
    orchPubBeforeMem crawlSuccessTrace = true ∧
    orchPubBeforeMem crawlFailureTrace = true ∧
    handlerPubBeforeStore crawlSuccessTrace = true := by
  decide

/-- C2, claim as stated: the batch is accepted iff the number of idle
workers is at least `max(⌈n/10⌉, 2)`.  False at `maxWorkers = 10`,
`active = 8`, `n = 100`: 2 idle workers accept a 100-URL batch even
though `max(10, 2) = 10 > 2`. -/
theorem claim_C2_counterexample :
    ¬ (canAcceptWork 10 8 100 = true ↔ (10 - 8 : Int) ≥ max (((100 + 9) / 10 : Nat) : Int) 2) := by
  decide

/-- C2 amended: `CanAcceptWork` is a disjunction with floor division,
so the batch is accepted iff idle workers ≥ `min(⌊n/10⌋, 2)`; the
rejection path retries at `maxWorkers/4` and reports
`system overloaded` exactly when `maxWorkers/4 < 1`. -/
theorem claim_C2_amended (maxWorkers active : Int) (n : Nat) :
    (canAcceptWork maxWorkers active n = true ↔
      maxWorkers - active ≥ min ((n / 10 : Nat) : Int) 2) ∧
    (processContentAdmission maxWorkers active n = .overloaded ↔
      canAcceptWork maxWorkers active n = false ∧ maxWorkers.tdiv 4 < 1) ∧
    (processContentAdmission maxWorkers active n = .reducedConcurrency (maxWorkers.tdiv 4) ↔
      canAcceptWork maxWorkers active n = false ∧ 1 ≤ maxWorkers.tdiv 4) ∧
    (processContentURLsError maxWorkers active n false false = some "system overloaded" ↔
      canAcceptWork maxWorkers active n = false ∧ maxWorkers.tdiv 4 < 1) := by
  refine ⟨?_, ?_, ?_, ?_⟩
  · simp only [canAcceptWork, Bool.or_eq_true, decide_eq_true_eq]
    omega
  · unfold processContentAdmission
    split_ifs with h1 h2 <;> simp_all
  · unfold processContentAdmission
    split_ifs with h1 h2 <;> simp_all
  · unfold processContentURLsError processContentAdmission
    split_ifs with h1 h2 <;> simp_all

/-- C7, claim as stated: the response returned by `processURL` is the
first strategy response with empty error and trimmed Markdown longer
than 100 characters.  False: when the first tier fails and the browser
tier returns an empty error with a 2-character Markdown body, that
short response is returned as a success. -/
theorem claim_C7_counterexample :
    (processURLSelect ⟨"fetch failed", ""⟩ ⟨"", "ok"⟩).error = "" ∧
    ¬ (goTrimmedLen (processURLSelect ⟨"fetch failed", ""⟩ ⟨"", "ok"⟩).markdown > 100) := by
  decide

/-- C7 amended: the first-tier response (rendered fetch with plain-HTTP
fallback inside) is returned iff its error is empty and its trimmed
Markdown exceeds 100 bytes; otherwise the browser-tier response (with
aggressive-HTTP fallback inside) is returned whenever its error is
empty, with no length threshold; otherwise an error response is
returned. -/
theorem claim_C7_amended (h b : ContentResponseM) :
    (tierOneKeep h = true → processURLSelect h b = h) ∧
    (tierOneKeep h = false → b.error = "" → processURLSelect h b = b) ∧
    (tierOneKeep h = false → b.error ≠ "" → (processURLSelect h b).error ≠ "") := by
  refine ⟨?_, ?_, ?_⟩
  · intro hk
    simp [processURLSelect, hk]
  · intro hk hb
    simp [processURLSelect, hk, hb]
  · intro hk hb
    by_cases he : h.error = ""
    · simp [processURLSelect, hk, hb, he]
    · simp only [processURLSelect, hk, Bool.false_eq_true, if_false, hb, he, ne_eq,
        not_false_eq_true, if_true, if_neg]
      split_ifs
      · exact string_append_ne_empty _ _ he
      · exact string_append_ne_empty _ _ (string_append_ne_empty _ _
          (string_append_ne_empty _ _ he))

/-- C7 witness: a first-tier response with empty error and 101 bytes of
Markdown is returned unchanged. -/
theorem claim_C7_witness :
    processURLSelect ⟨"", String.mk (List.replicate 101 'a')⟩ ⟨"", ""⟩ =
      ⟨"", String.mk (List.replicate 101 'a')⟩ :=
  (claim_C7_amended ⟨"", String.mk (List.replicate 101 'a')⟩ ⟨"", ""⟩).1 (by decide)

/-- C10: the pool size is always clamped to `[5, 50]`, hence the
reduced concurrency `maxWorkers/4` is at least 1, the admission path
never produces `system overloaded`, and `/content` never answers 503
from a pool sized by `calculateOptimalWorkers`. -/
theorem claim_C10_overload_unreachable (cpuCount sysBytes : Nat) (active : Int) (n : Nat)
    (submitTimeout processingTimeout : Bool) :
    5 ≤ calculateOptimalWorkers cpuCount sysBytes ∧
    calculateOptimalWorkers cpuCount sysBytes ≤ 50 ∧
    1 ≤ ((calculateOptimalWorkers cpuCount sysBytes : Int)).tdiv 4 ∧
    processContentAdmission (calculateOptimalWorkers cpuCount sysBytes) active n ≠ .overloaded ∧
    handleGetContentStatus
      (processContentURLsError (calculateOptimalWorkers cpuCount sysBytes) active n
        submitTimeout processingTimeout) ≠ 503 := by
  have hbounds : 5 ≤ calculateOptimalWorkers cpuCount sysBytes ∧
      calculateOptimalWorkers cpuCount sysBytes ≤ 50 := by
    simp only [calculateOptimalWorkers]
    split_ifs <;> omega
  have htdiv : ((calculateOptimalWorkers cpuCount sysBytes : Int)).tdiv 4 =
      ((calculateOptimalWorkers cpuCount sysBytes / 4 : Nat) : Int) := rfl
  have h5 : 5 ≤ calculateOptimalWorkers cpuCount sysBytes := hbounds.1
  have hdiv : 1 ≤ ((calculateOptimalWorkers cpuCount sysBytes : Int)).tdiv 4 := by
    rw [htdiv]
    have : 1 ≤ calculateOptimalWorkers cpuCount sysBytes / 4 := by omega
    exact_mod_cast this
  have hadm : processContentAdmission (calculateOptimalWorkers cpuCount sysBytes) active n ≠
      .overloaded := by
    unfold processContentAdmission
    split_ifs with h1 h2
    · simp
    · rw [htdiv] at h2
      omega
    · simp
  refine ⟨hbounds.1, hbounds.2, hdiv, hadm, ?_⟩
  unfold processContentURLsError
  split
  · next heq => exact absurd heq hadm
  · simp [handleGetContentStatus]
  · split_ifs <;> simp only [handleGetContentStatus] <;> decide

theorem utf8Size_one_of_valid {c : Char} (h : isValidJobIDChar c = true) :
    goUtf8Size c = 1 := by
  simp only [isValidJobIDChar, Bool.or_eq_true, Bool.and_eq_true, decide_eq_true_eq] at h
  have hlt : c.toNat < 0x80 := by
    rcases h with ((((⟨h1, h2⟩ | ⟨h1, h2⟩) | ⟨h1, h2⟩) | h1) | h1) <;> omega
  simp [goUtf8Size, hlt]

theorem goStringLen_eq_length {s : List Char}
    (hall : ∀ c ∈ s, isValidJobIDChar c = true) : goStringLen s = s.length := by
  induction s with
  | nil => rfl
  | cons c cs ih =>
    have hc : goUtf8Size c = 1 := utf8Size_one_of_valid (hall c (List.mem_cons_self c cs))
    have ihs := ih (fun x hx => hall x (List.mem_cons_of_mem _ hx))
    simp [goStringLen, hc] at ihs ⊢
    omega

/-- C5: the API accepts a client-supplied job id exactly when its
length is between 3 and 50 and every character is an ASCII letter,
digit, hyphen or underscore (part_001 lines 84-88 and 191-208; the
byte-length check coincides with the character count because the
allowed characters are all one UTF-8 byte). -/
theorem claim_C5_jobid_validation (s : List Char) :
    isValidJobID s = true ↔
      3 ≤ s.length ∧ s.length ≤ 50 ∧ ∀ c ∈ s, isValidJobIDChar c = true := by
  unfold isValidJobID
  by_cases hall : ∀ c ∈ s, isValidJobIDChar c = true
  · have hlen := goStringLen_eq_length hall
    have hall' : s.all isValidJobIDChar = true := List.all_eq_true.mpr hall
    rw [hlen]
    split_ifs with hc
    · simp only [Bool.or_eq_true, decide_eq_true_eq] at hc
      simp only [Bool.false_eq_true, false_iff]
      omega
    · simp only [Bool.or_eq_true, decide_eq_true_eq, not_or, not_lt] at hc
      simp only [hall', true_iff, iff_true]
      exact ⟨hc.1, by omega, hall⟩
  · have hall2 : ¬ (s.all isValidJobIDChar = true) := fun h => hall (List.all_eq_true.mp h)
    have hall' : s.all isValidJobIDChar = false := Bool.eq_false_iff.mpr hall2
    split_ifs with hc
    · simp only [Bool.false_eq_true, false_iff]
      intro ⟨_, _, h3⟩
      exact hall h3
    · rw [hall']
      simp only [Bool.false_eq_true, false_iff]
      intro ⟨_, _, h3⟩
      exact hall h3

/-- C5 witness: the id `job-1` is accepted and satisfies the predicate;
uses the theorem right-to-left at a concrete string. -/
theorem claim_C5_witness : isValidJobID "job-1".data = true :=
  (claim_C5_jobid_validation "job-1".data).mpr ⟨by decide, by decide, by decide⟩

theorem generateFallbackURLs_eq_specOrder (u : GoURL) :
    generateFallbackURLs u = specFallbackOrder u := by
  unfold generateFallbackURLs specFallbackOrder
  by_cases hs : u.scheme = "http" <;> cases hw : hostHasWWW u.host <;> simp [hw, hs]

/-- C8: the prober probes the original URL first, then the fallback
candidates in the claimed order (www-toggle, then for `http` the
`https` variants of both host forms); the returned URL is the first
reachable candidate (defaulting to the original), `Success` holds iff
some candidate is reachable, and `FallbackURL` echoes the returned
URL. -/
theorem claim_C8_prober_order (probe : String → Option String) (u : GoURL) :
    (findAccessibleURL probe u).1 =
      (((u.toStr :: specFallbackOrder u).find? (fun s => (probe s).isNone)).getD u.toStr) ∧
    (findAccessibleURL probe u).2.success =
      ((u.toStr :: specFallbackOrder u).any (fun s => (probe s).isNone)) ∧
    (findAccessibleURL probe u).2.fallbackURL = (findAccessibleURL probe u).1 ∧
    (findAccessibleURL probe u).2.originalURL = u.toStr := by
  unfold findAccessibleURL
  rw [generateFallbackURLs_eq_specOrder]
  cases hp : probe u.toStr with
  | none =>
    simp [List.find?_cons, List.any_cons, hp]
  | some e0 =>
    have hp' : ((fun s => (probe s).isNone) u.toStr) = false := by simp [hp]
    cases hf : (specFallbackOrder u).find? (fun s => (probe s).isNone) with
    | none =>
      have hany : ((specFallbackOrder u).any fun s => (probe s).isNone) = false := by
        rw [List.any_eq_false]
        intro x hx
        have hnone := List.find?_eq_none.mp hf x hx
        simpa using hnone
      simp [List.find?_cons, List.any_cons, hp, hp', hf, hany]
    | some f =>
      have hmem : f ∈ specFallbackOrder u := List.mem_of_find?_eq_some hf
      have hpf := List.find?_some hf
      have hany : ((specFallbackOrder u).any fun s => (probe s).isNone) = true :=
        List.any_eq_true.mpr ⟨f, hmem, hpf⟩
      simp [List.find?_cons, List.any_cons, hp, hp', hf, hany]

theorem foldl_mapInsert_some (l : List JobRecord) :
    ∀ (m : ActiveJobsMap) (k : String) (v : JobRecord),
      (l.foldl (fun m j => mapInsert m j.id j) m) k = some v →
      (v ∈ l ∧ v.id = k) ∨ m k = some v := by
  induction l with
  | nil => intro m k v h; exact Or.inr h
  | cons j rest ih =>
    intro m k v h
    rcases ih (mapInsert m j.id j) k v h with h1 | h1
    · exact Or.inl ⟨List.mem_cons_of_mem _ h1.1, h1.2⟩
    · by_cases hk : k = j.id
      · subst hk
        have h2 : j = v := by simpa [mapInsert] using h1
        subst h2
        exact Or.inl ⟨List.mem_cons_self _ _, rfl⟩
      · simp only [mapInsert, if_neg hk] at h1
        exact Or.inr h1

theorem foldl_mapInsert_isSome (l : List JobRecord) :
    ∀ (m : ActiveJobsMap) (k : String),
      ((l.foldl (fun m j => mapInsert m j.id j) m) k).isSome = true ↔
        ((∃ j ∈ l, j.id = k) ∨ (m k).isSome = true) := by
  induction l with
  | nil => intro m k; simp
  | cons j rest ih =>
    intro m k
    rw [List.foldl_cons, ih]
    by_cases hk : k = j.id
    · subst hk
      simp [mapInsert]
    · simp only [mapInsert, if_neg hk, List.mem_cons]
      constructor
      · rintro (⟨x, hx, hxk⟩ | hm)
        · exact Or.inl ⟨x, Or.inr hx, hxk⟩
        · exact Or.inr hm
      · rintro (⟨x, hx | hx, hxk⟩ | hm)
        · subst hx; exact absurd hxk.symm hk
        · exact Or.inl ⟨x, hx, hxk⟩
        · exact Or.inr hm

/-- C9: startup recovery rewrites exactly the `running` records —
marked `failed` with error `Job interrupted by server restart` and a
bumped `updated_at` — to the store, and the recovered in-memory map
contains exactly the ids of those records, each bound to a record with
the recovery status, error and timestamp. -/
theorem claim_C9_recovery (store : List JobRecord) (now : Nat) (id : String) :
    (((loadActiveJobs store now).1 id).isSome = true ↔
      ∃ j ∈ store, j.id = id ∧ j.status = "running") ∧
    (∀ v, (loadActiveJobs store now).1 id = some v →
      v.status = "failed" ∧ v.error = "Job interrupted by server restart" ∧
      v.updatedAt = now) ∧
    (loadActiveJobs store now).2 =
      (store.filter (fun j => j.status = "running")).map (recoveryTransform now) := by
  refine ⟨?_, ?_, rfl⟩
  · rw [loadActiveJobs, foldl_mapInsert_isSome]
    simp only [emptyJobsMap, Option.isSome_none, Bool.false_eq_true, or_false,
      List.mem_map, List.mem_filter]
    constructor
    · rintro ⟨x, ⟨j, ⟨hj, hjs⟩, rfl⟩, hxk⟩
      exact ⟨j, hj, hxk, by simpa using hjs⟩
    · rintro ⟨j, hj, hid, hjs⟩
      exact ⟨recoveryTransform now j, ⟨j, ⟨hj, by simpa using hjs⟩, rfl⟩, hid⟩
  · intro v hv
    rcases foldl_mapInsert_some _ _ _ _ hv with ⟨hmem, _⟩ | hempty
    · rcases List.mem_map.mp hmem with ⟨j, _, rfl⟩
      exact ⟨rfl, rfl, rfl⟩
    · exact absurd hempty (by simp [emptyJobsMap])

/-- C9 witness: with one `running` and one `completed` record in the
store, the map holds the running id, its record carries the recovery
status, and the rewrite list is exactly the transformed running
record. -/
theorem claim_C9_witness :
    (((loadActiveJobs [⟨"a", "running", "", 0, 0⟩, ⟨"b", "completed", "", 0, 0⟩] 5).1 "a").isSome
        = true) ∧
    ((loadActiveJobs [⟨"a", "running", "", 0, 0⟩, ⟨"b", "completed", "", 0, 0⟩] 5).1 "b"
        = none) ∧
    (recoveryTransform 5 (⟨"a", "running", "", 0, 0⟩ : JobRecord)).status = "failed" :=
  ⟨(claim_C9_recovery [⟨"a", "running", "", 0, 0⟩, ⟨"b", "completed", "", 0, 0⟩] 5 "a").1.mpr
      ⟨⟨"a", "running", "", 0, 0⟩, by decide, by decide, by decide⟩,
   by decide,
   (claim_C9_recovery [⟨"a", "running", "", 0, 0⟩, ⟨"b", "completed", "", 0, 0⟩] 5 "a").2.1
      (recoveryTransform 5 ⟨"a", "running", "", 0, 0⟩) (by decide) |>.1⟩

theorem nodup_mergedURLs (r : CrawlReq) (actualURL : GoURL) (parses : List (List GoURL))
    (htmlErr : Option String) (htmlCandidates : List GoURL) :
    (mergedURLs r actualURL parses htmlErr htmlCandidates).Nodup := by
  unfold mergedURLs
  split
  · split
    · exact nodup_tier1URLs r parses
    · exact nodup_removeDuplicateURLs _
  · exact nodup_tier1URLs r parses

theorem mem_mergedURLs (r : CrawlReq) (actualURL : GoURL) (parses : List (List GoURL))
    (htmlErr : Option String) (htmlCandidates : List GoURL) (u : GoURL)
    (hu : u ∈ mergedURLs r actualURL parses htmlErr htmlCandidates) :
    u ∈ parses.flatten ∨ u.host ∈ allowedDomains actualURL.host := by
  unfold mergedURLs at hu
  split at hu
  · split at hu
    · exact Or.inl (mem_tier1URLs r parses u hu)
    · rcases List.mem_append.mp ((mem_removeDuplicateURLs _ _).mp hu) with h | h
      · exact Or.inl (mem_tier1URLs r parses u h)
      · exact Or.inr (host_mem_of_htmlTierURLs _ _ _ u h)
  · exact Or.inl (mem_tier1URLs r parses u hu)

theorem nodup_cappedURLs (m : Int) (l : List GoURL) (hl : l.Nodup) :
    (cappedURLs m l).Nodup := by
  unfold cappedURLs
  split
  · exact hl.sublist (List.take_sublist _ _)
  · exact hl

theorem mem_cappedURLs (m : Int) (l : List GoURL) (u : GoURL) (hu : u ∈ cappedURLs m l) :
    u ∈ l := by
  unfold cappedURLs at hu
  split at hu
  · exact (List.take_sublist _ _).subset hu
  · exact hu

theorem length_cappedURLs (m : Int) (l : List GoURL) (hm : 0 < m) :
    ((cappedURLs m l).length : Int) ≤ m := by
  unfold cappedURLs
  split
  · next hcond =>
    simp only [Bool.and_eq_true, decide_eq_true_eq] at hcond
    simp only [List.length_take]
    omega
  · next hcond =>
    simp only [Bool.and_eq_true, decide_eq_true_eq, not_and, not_lt] at hcond
    exact hcond hm

theorem crawlPipeline_ok_urls (r : CrawlReq) (actualURL : GoURL) (fallbackOk robotsFound : Bool)
    (parses : List (List GoURL)) (htmlErr : Option String) (htmlCandidates : List GoURL)
    (res : CrawlResultM)
    (h : crawlPipeline r actualURL fallbackOk robotsFound parses htmlErr htmlCandidates =
      .ok res) :
    res.urls = cappedURLs r.maxURLs (mergedURLs r actualURL parses htmlErr htmlCandidates) ∧
    res.usedHTML = (enableHTMLFlag r && shouldFallbackToHTML (tier1URLs r parses)) ∧
    res.usedHeadless = false ∧
    res.usedSitemap = enableSitemapFlag r := by
  unfold crawlPipeline at h
  split at h
  · exact absurd h (by simp)
  · rw [Except.ok.injEq] at h
    subst h
    exact ⟨rfl, rfl, rfl, rfl⟩

/-- C3, claim as stated: every URL of a completed `CrawlResult` has
host equal to the seed's host or its www-toggle.  False: the sitemap
tier takes `<loc>` entries verbatim (sitemap.go lines 247-251), so a
sitemap listing an off-host URL puts it into the result; here
`other.com` survives for seed `example.com`. -/
theorem claim_C3_counterexample :
    crawlPipeline
        (applyCrawlDefaults ⟨"https://example.com", "", 0, 0, "", 0, false, false, false, 0⟩)
        ⟨"https", "example.com", ""⟩ true false [[⟨"https", "other.com", "/a"⟩]]
        (some "colly error") [] =
      .ok ⟨⟨"https", "example.com", ""⟩, 1, [⟨"https", "other.com", "/a"⟩], true, true, false⟩ ∧
    ¬ (GoURL.host ⟨"https", "other.com", "/a"⟩ ∈
        allowedDomains (GoURL.host ⟨"https", "example.com", ""⟩)) := by
  constructor
  · rfl
  · decide

/-- C3 amended: the result list contains no duplicates, and every URL
either comes verbatim from a parsed sitemap (the sitemap tier applies
no host filter) or was discovered by the HTML walker and then its host
is the base host or its www-toggle. -/
theorem claim_C3_amended (r : CrawlReq) (actualURL : GoURL) (fallbackOk robotsFound : Bool)
    (parses : List (List GoURL)) (htmlErr : Option String) (htmlCandidates : List GoURL)
    (res : CrawlResultM)
    (h : crawlPipeline r actualURL fallbackOk robotsFound parses htmlErr htmlCandidates =
      .ok res) :
    res.urls.Nodup ∧
    ∀ u ∈ res.urls, u ∈ parses.flatten ∨ u.host ∈ allowedDomains actualURL.host := by
  obtain ⟨hurls, -, -, -⟩ :=
    crawlPipeline_ok_urls r actualURL fallbackOk robotsFound parses htmlErr htmlCandidates res h
  rw [hurls]
  refine ⟨nodup_cappedURLs _ _ (nodup_mergedURLs r actualURL parses htmlErr htmlCandidates),
    fun u hu => ?_⟩
  exact mem_mergedURLs r actualURL parses htmlErr htmlCandidates u (mem_cappedURLs _ _ u hu)

/-- C3 witness: a one-URL on-host crawl; both conjuncts of the amended
claim evaluated at the concrete result. -/
theorem claim_C3_witness :
    (CrawlResultM.urls
        ⟨⟨"https", "example.com", ""⟩, 1, [⟨"https", "example.com", "/p"⟩], true, true,
          false⟩).Nodup ∧
    ∀ u ∈ CrawlResultM.urls
        ⟨⟨"https", "example.com", ""⟩, 1, [⟨"https", "example.com", "/p"⟩], true, true, false⟩,
      u ∈ ([[⟨"https", "example.com", "/p"⟩]] : List (List GoURL)).flatten ∨
      u.host ∈ allowedDomains (GoURL.host ⟨"https", "example.com", ""⟩) :=
  claim_C3_amended
    (applyCrawlDefaults ⟨"https://example.com", "", 0, 0, "", 0, false, false, false, 0⟩)
    ⟨"https", "example.com", ""⟩ true false [[⟨"https", "example.com", "/p"⟩]] none []
    ⟨⟨"https", "example.com", ""⟩, 1, [⟨"https", "example.com", "/p"⟩], true, true, false⟩
    (by rfl)

/-- C4, claim as stated: after defaulting and clamping,
`len(URLs) ≤ max_urls` always holds.  False for a request carrying a
negative `max_urls`: the defaulting only replaces `0` and only clamps
values above 5000, and the orchestrator skips truncation unless
`MaxURLs > 0`, so a one-URL result exceeds `max_urls = -1`. -/
theorem claim_C4_counterexample :
    (applyCrawlDefaults
        ⟨"https://example.com", "", 0, 0, "", -1, false, false, false, 0⟩).maxURLs = -1 ∧
    crawlPipeline
        (applyCrawlDefaults ⟨"https://example.com", "", 0, 0, "", -1, false, false, false, 0⟩)
        ⟨"https", "example.com", ""⟩ true false [[⟨"https", "example.com", "/p"⟩]]
        (some "colly error") [] =
      .ok ⟨⟨"https", "example.com", ""⟩, 1, [⟨"https", "example.com", "/p"⟩], true, true,
        false⟩ ∧
    ¬ ((([(⟨"https", "example.com", "/p"⟩ : GoURL)] : List GoURL).length : Int) ≤
        (applyCrawlDefaults
          ⟨"https://example.com", "", 0, 0, "", -1, false, false, false, 0⟩).maxURLs) := by
  refine ⟨rfl, rfl, ?_⟩
  decide

theorem maxURLs_defaultDepth (r : CrawlReq) : (defaultDepth r).maxURLs = r.maxURLs := by
  unfold defaultDepth; split <;> rfl

theorem maxURLs_defaultWorkers (r : CrawlReq) : (defaultWorkers r).maxURLs = r.maxURLs := by
  unfold defaultWorkers; split <;> rfl

theorem maxURLs_defaultDelay (r : CrawlReq) : (defaultDelay r).maxURLs = r.maxURLs := by
  unfold defaultDelay; split <;> rfl

theorem maxURLs_defaultHeadlessTimeout (r : CrawlReq) :
    (defaultHeadlessTimeout r).maxURLs = r.maxURLs := by
  unfold defaultHeadlessTimeout; split <;> rfl

theorem maxURLs_applyCrawlDefaults (r : CrawlReq) :
    (applyCrawlDefaults r).maxURLs =
      if (if r.maxURLs = 0 then 1000 else r.maxURLs) > 5000 then 5000
      else (if r.maxURLs = 0 then 1000 else r.maxURLs) := by
  unfold applyCrawlDefaults clampMaxURLs defaultMaxURLs
  rw [maxURLs_defaultHeadlessTimeout]
  rw [maxURLs_defaultDelay, maxURLs_defaultWorkers, maxURLs_defaultDepth]
  split_ifs <;>
    simp_all [maxURLs_defaultDelay, maxURLs_defaultWorkers, maxURLs_defaultDepth]

theorem maxURLs_applyCrawlDefaults_bounds (r : CrawlReq) (hr : 0 ≤ r.maxURLs) :
    0 < (applyCrawlDefaults r).maxURLs ∧ (applyCrawlDefaults r).maxURLs ≤ 5000 := by
  rw [maxURLs_applyCrawlDefaults]
  split_ifs <;> omega

/-- C4 amended: for requests whose `max_urls` is non-negative (the
only values the JSON surface meaningfully carries), defaulting yields
`0 < max_urls ≤ 5000` and every completed result satisfies
`len(URLs) ≤ max_urls`. -/
theorem claim_C4_amended (raw : CrawlReq) (hraw : 0 ≤ raw.maxURLs) (actualURL : GoURL)
    (fallbackOk robotsFound : Bool) (parses : List (List GoURL)) (htmlErr : Option String)
    (htmlCandidates : List GoURL) (res : CrawlResultM)
    (h : crawlPipeline (applyCrawlDefaults raw) actualURL fallbackOk robotsFound parses
      htmlErr htmlCandidates = .ok res) :
    0 < (applyCrawlDefaults raw).maxURLs ∧ (applyCrawlDefaults raw).maxURLs ≤ 5000 ∧
    ((res.urls.length : Int)) ≤ (applyCrawlDefaults raw).maxURLs := by
  have hm := maxURLs_applyCrawlDefaults_bounds raw hraw
  obtain ⟨hurls, -, -, -⟩ :=
    crawlPipeline_ok_urls (applyCrawlDefaults raw) actualURL fallbackOk robotsFound parses
      htmlErr htmlCandidates res h
  refine ⟨hm.1, hm.2, ?_⟩
  rw [hurls]
  exact length_cappedURLs _ _ hm.1

/-- C4 witness: the amended claim at a concrete request with
`max_urls = 2` and three sitemap URLs; the result is truncated to 2. -/
theorem claim_C4_witness :
    (0 : Int) < 2 ∧ (2 : Int) ≤ 5000 ∧
    ((CrawlResultM.urls
        ⟨⟨"https", "example.com", ""⟩, 2,
          [⟨"https", "example.com", "/p1"⟩, ⟨"https", "example.com", "/p2"⟩], true, false,
          false⟩).length : Int) ≤ 2 := by
  have happ : (applyCrawlDefaults
      ⟨"https://example.com", "", 0, 0, "", 2, true, false, false, 0⟩).maxURLs = 2 := rfl
  have h := claim_C4_amended
    ⟨"https://example.com", "", 0, 0, "", 2, true, false, false, 0⟩ (by decide)
    ⟨"https", "example.com", ""⟩ true false
    [[⟨"https", "example.com", "/p1"⟩, ⟨"https", "example.com", "/p2"⟩,
      ⟨"https", "example.com", "/p3"⟩]] none []
    ⟨⟨"https", "example.com", ""⟩, 2,
      [⟨"https", "example.com", "/p1"⟩, ⟨"https", "example.com", "/p2"⟩], true, false, false⟩
    (by rfl)
  rw [happ] at h
  exact h

/-- C6: the HTML tier runs iff the effective HTML flag is on and tier 1
yielded fewer than 10 URLs; with no tier flag set, sitemap and HTML
default on while the headless tier never runs. -/
theorem claim_C6_tier_logic (r : CrawlReq) (actualURL : GoURL) (fallbackOk robotsFound : Bool)
    (parses : List (List GoURL)) (htmlErr : Option String) (htmlCandidates : List GoURL)
    (res : CrawlResultM)
    (h : crawlPipeline r actualURL fallbackOk robotsFound parses htmlErr htmlCandidates =
      .ok res) :
    (res.usedHTML = true ↔
      (enableHTMLFlag r = true ∧ (tier1URLs r parses).length < 10)) ∧
    (r.enableSitemap = false → r.enableHTML = false → r.enableHeadless = false →
      enableSitemapFlag r = true ∧ enableHTMLFlag r = true ∧ res.usedHeadless = false) := by
  obtain ⟨-, hhtml, hheadless, -⟩ :=
    crawlPipeline_ok_urls r actualURL fallbackOk robotsFound parses htmlErr htmlCandidates res h
  constructor
  · rw [hhtml]
    simp [shouldFallbackToHTML]
  · intro h1 h2 h3
    exact ⟨by simp [enableSitemapFlag, h1, h2, h3], by simp [enableHTMLFlag, h1, h2, h3],
      hheadless⟩

/-- C6 witness: a request with no tier flag set and an empty tier-1
yield runs the HTML tier and never the headless tier. -/
theorem claim_C6_witness :
    CrawlResultM.usedHTML
        ⟨⟨"https", "example.com", ""⟩, 0, [], true, true, false⟩ = true ∧
    CrawlResultM.usedHeadless
        ⟨⟨"https", "example.com", ""⟩, 0, [], true, true, false⟩ = false := by
  have h := claim_C6_tier_logic
    ⟨"https://example.com", "", 1, 10, "200ms", 1000, false, false, false, 30⟩
    ⟨"https", "example.com", ""⟩ true false [] none []
    ⟨⟨"https", "example.com", ""⟩, 0, [], true, true, false⟩ (by rfl)
  exact ⟨h.1.mpr ⟨by decide, by decide⟩, (h.2 rfl rfl rfl).2.2⟩

end Crawler
